import Mathlib

/-!
Verification of the wind-farm practicum firmware (Arduino wind turbine node).

The definitions below are a shallow embedding of the firmware source:
the SysTick-based timestamp service `get_systick_timestamp`, the serial
command dispatcher, the control-loop body, and the tab-separated data-line
formatter of the multi-channel variant of the firmware.  Machine integers
are modelled as `Nat` with explicit reduction modulo 2^32 / 2^16 where the
C code relies on unsigned wraparound.
-/

namespace Windfarm

/-- 2^32, the modulus of C `uint32_t` arithmetic. -/
def UINT32_MOD : Nat := 4294967296

/-- 2^16, the modulus of C `uint16_t` arithmetic. -/
def UINT16_MOD : Nat := 65536

/-- Unsigned 32-bit subtraction `a - b` with wraparound, for `a b < 2^32`. -/
def usub32 (a b : Nat) : Nat := (a + UINT32_MOD - b) % UINT32_MOD

/-- The master clock frequency `VARIANT_MCK` of the board (Adafruit Feather
M4 / ItsyBitsy M4, SAMD51 at 120 MHz), as used by the firmware in the
expression `1048576 / (VARIANT_MCK / 1000000)`. -/
def VARIANT_MCK : Nat := 120000000

/-- Modelled from the spec: the SysTick reload value `SysTick->LOAD`.  The
spec states the hardware down-counter is "reloaded every millisecond by an
interrupt", so the counter spans one millisecond of master-clock cycles:
`VARIANT_MCK / 1000 - 1`.  (The Arduino core configures SysTick this way;
that configuration code is not part of this repository.) -/
def SYSTICK_LOAD : Nat := VARIANT_MCK / 1000 - 1

/-- `[ms]` period with which the loop polls for serial commands
(`PERIOD_SC` in the source). -/
def PERIOD_SC : Nat := 20

/-- The identification string printed on the `id?` command. -/
def ID_STRING : String := "Arduino, Wind Turbine"

/-! ### SysTick hardware model

The timestamp service races against the SysTick hardware: a free-running
down-counter (`SysTick->VAL`), the pending-interrupt flag
(`SCB->ICSR & SCB_ICSR_PENDSTSET_Msk`), and the software millisecond
counter incremented by the tick interrupt handler (read through
`millis()`).  We model the hardware state and the two kinds of
asynchronous events that can interleave with the read sequence:

* `clk` — one master-clock cycle: the down-counter decrements, and on
  reaching zero it reloads to `SysTick->LOAD` and raises the pending flag
  (the once-per-millisecond tick);
* `svc` — the interrupt handler is taken: it clears the pending flag and
  increments the millisecond counter.
-/

/-- Asynchronous hardware events interleaving with the read sequence. -/
inductive TickEv where
  | clk : TickEv
  | svc : TickEv
deriving DecidableEq, Repr

/-- SysTick hardware state: down-counter value, pending flag, and the
software millisecond counter (a `uint32_t`, kept reduced mod 2^32). -/
structure TickHW where
  val : Nat
  pend : Bool
  tick : Nat
deriving DecidableEq, Repr

/-- Effect of one hardware event on the hardware state. -/
def evStep (load : Nat) (s : TickHW) : TickEv → TickHW
  | .clk =>
      if s.val = 0 then { s with val := load, pend := true }
      else { s with val := s.val - 1 }
  | .svc =>
      if s.pend then { s with pend := false, tick := (s.tick + 1) % UINT32_MOD }
      else s

/-- Run a finite batch of hardware events. -/
def runEvs (load : Nat) (s : TickHW) (evs : List TickEv) : TickHW :=
  evs.foldl (evStep load) s

/-- State seen by the reader: the hardware plus the remaining schedule of
event batches.  One batch is consumed between every two consecutive
hardware reads of the read sequence; a finite schedule captures that the
tick interrupt can preempt the read sequence only finitely often. -/
structure ReadSt where
  hw : TickHW
  sched : List (List TickEv)
deriving DecidableEq, Repr

/-- Let the environment act between two hardware reads: apply the next
batch of the schedule (or nothing, when the schedule is exhausted). -/
def advance (load : Nat) (rs : ReadSt) : ReadSt :=
  match rs.sched with
  | [] => rs
  | b :: rest => ⟨runEvs load rs.hw b, rest⟩

/-- One snapshot of the three logically related values read by
`get_systick_timestamp`: `ticks` (down-counter), `pend` (pending flag) and
`count` (the millisecond count variable `_ulTickCount`). -/
structure SysSnap where
  ticks : Nat
  pend : Bool
  count : Nat
deriving DecidableEq, Repr

/-- The consistency-retry `do … while` loop of `get_systick_timestamp`:
copy snapshot2 into snapshot1, re-read snapshot2, and repeat while the
pending flags differ, the counts differ, or the down-counter increased
(`ticks < ticks2`).  `cLocal` is the value of the local variable
`_ulTickCount = millis()` read once before the loop: each `count2 =
_ulTickCount` in the source re-reads that local, not the live counter.
`fuel` bounds the number of iterations (the C loop is unbounded); `none`
means the fuel ran out. -/
def sysLoop (load cLocal : Nat) : Nat → SysSnap → ReadSt →
    Option (SysSnap × SysSnap × ReadSt)
  | 0, _, _ => none
  | fuel + 1, snap2, rs =>
      let snap1 := snap2
      let rsA := advance load rs
      let ticks2 := rsA.hw.val
      let rsB := advance load rsA
      let pend2 := rsB.hw.pend
      let count2 := cLocal
      let snap2' : SysSnap := ⟨ticks2, pend2, count2⟩
      if snap1.pend ≠ snap2'.pend ∨ snap1.count ≠ snap2'.count ∨
          snap1.ticks < snap2'.ticks then
        sysLoop load cLocal fuel snap2' rsB
      else
        some (snap1, snap2', rsB)

/-- `(*stamp_micros_part) = (((SysTick->LOAD - ticks) * (1048576 /
(VARIANT_MCK / 1000000))) >> 20)` in `uint32_t` arithmetic, assigned to a
`uint16_t`. -/
def stampMicrosPart (ticks : Nat) : Nat :=
  (((usub32 SYSTICK_LOAD ticks * (1048576 / (VARIANT_MCK / 1000000)))
    % UINT32_MOD) >>> 20) % UINT16_MOD

/-- Result of `get_systick_timestamp`: the two output parameters, plus the
two snapshots the loop converged with and the final environment state
(kept so that successive calls can be chained). -/
structure TSOut where
  millis : Nat
  microsPart : Nat
  snap1 : SysSnap
  snap2 : SysSnap
  final : ReadSt
deriving DecidableEq, Repr

/-- `get_systick_timestamp`.  The local `_ulTickCount` is initialized once
from `millis()` (the hardware's current tick count); the initial snapshot2
is read; then the consistency-retry loop runs; on convergence
`stamp_millis` is `count2`, incremented when `pend` is set, and
`stamp_micros_part` is derived from `ticks`. -/
def get_systick_timestamp (fuel : Nat) (rs0 : ReadSt) : Option TSOut :=
  let ulTickCount := rs0.hw.tick
  let rsA := advance SYSTICK_LOAD rs0
  let ticks2 := rsA.hw.val
  let rsB := advance SYSTICK_LOAD rsA
  let pend2 := rsB.hw.pend
  let count2 := ulTickCount
  match sysLoop SYSTICK_LOAD ulTickCount fuel ⟨ticks2, pend2, count2⟩ rsB with
  | none => none
  | some (s1, s2, rsF) =>
      some ⟨(s2.count + if s1.pend then 1 else 0) % UINT32_MOD,
            stampMicrosPart s1.ticks, s1, s2, rsF⟩

/-! ### Line formatter

The data line is assembled by `snprintf` calls: first `"%lu\t%u"` with the
timestamp, then, for every sensor of the channel array in order,
`"\t%.2f\t%.2f\t%.5f"` with current, bus voltage and energy, and finally
emitted with `Ser.println`.  We model a line as a `List Char`.  The
sensor readings are C `float`s; we model each printed value by the integer
it is rounded to in units of `10^-d` (`d` = the number of fractional
digits of the conversion), which determines the exact characters
`snprintf "%.*f"` produces for a finite value. -/

/-- Decimal digits of `n`, most significant first, as `printf` renders an
unsigned integer.  `fuel`-driven structural recursion (any `fuel > n`
yields the digits of `n`). -/
def natDigitsGo : Nat → Nat → List Char
  | 0, _ => []
  | fuel + 1, n =>
      if n < 10 then [Nat.digitChar n]
      else natDigitsGo fuel (n / 10) ++ [Nat.digitChar (n % 10)]

/-- Decimal representation of `n` (the `%lu` / `%u` conversions). -/
def natDigits (n : Nat) : List Char := natDigitsGo (n + 1) n

/-- The `d` low decimal digits of `m`, least significant first. -/
def padDigitsRev : Nat → Nat → List Char
  | 0, _ => []
  | d + 1, m => Nat.digitChar (m % 10) :: padDigitsRev d (m / 10)

/-- The characters `snprintf "%.*f"` produces for a finite value, for a
fractional-digit count `d ≥ 1`: optional minus sign, the integer part, a
decimal point, then exactly `d` fraction digits.  The argument `q` is the
printed value scaled by `10^d` (i.e. the integer the float is rounded to
in units of `10^-d`). -/
def fmtFixed (d : Nat) (q : Int) : List Char :=
  (if q < 0 then ['-'] else []) ++
    natDigits (q.natAbs / 10 ^ d) ++
    '.' :: (padDigitsRev d (q.natAbs % 10 ^ d)).reverse

/-- Number of characters after the last `'.'` of a field (its count of
fractional digits, for a field containing a decimal point). -/
def fracLen (s : List Char) : Nat :=
  (s.reverse.takeWhile (fun c => c != '.')).length

/-- Append one tab-separated field to an accumulated line. -/
def appendField (acc f : List Char) : List Char := acc ++ '\t' :: f

/-- The per-channel `snprintf(buf + strlen(buf), …, "\t%.2f\t%.2f\t%.5f",
I, V, E)` append: current and bus voltage with 2 fractional digits, energy
with 5.  `r = (I, V, E)` as scaled integers. -/
def appendChannel (acc : List Char) (r : Int × Int × Int) : List Char :=
  acc ++ '\t' ::
    (fmtFixed 2 r.1 ++ '\t' :: (fmtFixed 2 r.2.1 ++ '\t' :: fmtFixed 5 r.2.2))

/-- The assembled data line (without the terminator): `"%lu\t%u"` with the
timestamp, then the three fields of every channel in array order. -/
def mkDataLine (ms us : Nat) (rs : List (Int × Int × Int)) : List Char :=
  rs.foldl appendChannel (natDigits ms ++ '\t' :: natDigits us)

/-- The line terminator `Ser.println` appends (Arduino `Print::println`
terminates lines with CR LF). -/
def lineTerm : List Char := ['\r', '\n']

/-- The full emitted line: data line plus terminator. -/
def emitLine (ms us : Nat) (rs : List (Int × Int × Int)) : List Char :=
  mkDataLine ms us rs ++ lineTerm

/-- Join a list of fields with single tabs.  A line `joinTab fields` whose
fields are tab-free consists of exactly `fields.length` tab-separated
fields. -/
def joinTab : List (List Char) → List Char
  | [] => []
  | f :: fs => fs.foldl appendField f

/-- The three formatted fields of every channel, in channel order. -/
def channelFields : List (Int × Int × Int) → List (List Char)
  | [] => []
  | r :: rest =>
      fmtFixed 2 r.1 :: fmtFixed 2 r.2.1 :: fmtFixed 5 r.2.2 ::
        channelFields rest

/-- The field decomposition of a data line: millis, micros, then the three
fields of each channel. -/
def dataFields (ms us : Nat) (rs : List (Int × Int × Int)) :
    List (List Char) :=
  natDigits ms :: natDigits us :: channelFields rs

/-! ### Command dispatch and the control loop -/

/-- Observable effects of dispatching one command: identification strings
printed, and the indices of the channels whose accumulators were reset. -/
structure DispatchOut where
  printed : List String
  resetChans : List Nat
deriving DecidableEq, Repr

/-- The command dispatch of `loop()`: `id?` prints the identification
string and stops the DAQ; `r` resets the accumulator of every sensor of
the channel array; `on` starts the DAQ; `off` stops it; any other token
toggles the DAQ run flag.  Returns the new `DAQ_running` flag and the
effects.  `nChan` is the size of the sensor array. -/
def dispatchCmd (nChan : Nat) (tok : String) (running : Bool) :
    Bool × DispatchOut :=
  if tok = "id?" then (false, ⟨[ID_STRING], []⟩)
  else if tok = "r" then (running, ⟨[], List.range nChan⟩)
  else if tok = "on" then (true, ⟨[], []⟩)
  else if tok = "off" then (false, ⟨[], []⟩)
  else (!running, ⟨[], []⟩)

/-- The loop's persistent (`static`) state: the DAQ run flag and the last
command-poll timestamp `tick_sc`. -/
structure LoopState where
  DAQ_running : Bool
  tick_sc : Nat
deriving DecidableEq, Repr

/-- Environment of one control-loop pass: the `millis()` reading, the
pending serial command (if one is available), the first channel's
conversion-ready flag, the timestamp-service result used for the line, and
the (current, bus-voltage, energy) readings of each channel of the array
(as scaled integers, see `fmtFixed`). -/
structure LoopEnv where
  millis_copy : Nat
  cmd : Option String
  convReady : Bool
  ts_millis : Nat
  ts_micros : Nat
  readings : List (Int × Int × Int)
deriving DecidableEq, Repr

/-- Observable output of one control-loop pass. -/
structure PassOut where
  printed : List String
  resetChans : List Nat
  dispatched : List String
  dataLine : Option (List Char)
  sampled : Nat
deriving DecidableEq, Repr

/-- Effects of the command-processing block of a pass. -/
structure CmdEffects where
  printed : List String
  resetChans : List Nat
  dispatched : List String
deriving DecidableEq, Repr

/-- One pass of `loop()` (multi-channel variant): if `PERIOD_SC` ms have
elapsed since `tick_sc` (in `uint32_t` arithmetic), reset `tick_sc` and
dispatch the available command, if any; then, if `DAQ_running` and the
first channel reports conversion-ready, read every channel and emit one
formatted data line. -/
def loopPass (st : LoopState) (env : LoopEnv) : LoopState × PassOut :=
  let pollNow := usub32 env.millis_copy st.tick_sc > PERIOD_SC
  let tick_sc1 := if pollNow then env.millis_copy else st.tick_sc
  let d : Bool × CmdEffects :=
    if pollNow then
      match env.cmd with
      | some tok =>
          let r := dispatchCmd env.readings.length tok st.DAQ_running
          (r.1, ⟨r.2.printed, r.2.resetChans, [tok]⟩)
      | none => (st.DAQ_running, ⟨[], [], []⟩)
    else (st.DAQ_running, ⟨[], [], []⟩)
  if d.1 && env.convReady then
    (⟨d.1, tick_sc1⟩,
     ⟨d.2.printed, d.2.resetChans, d.2.dispatched,
      some (emitLine env.ts_millis env.ts_micros env.readings),
      env.readings.length⟩)
  else
    (⟨d.1, tick_sc1⟩,
     ⟨d.2.printed, d.2.resetChans, d.2.dispatched, none, 0⟩)

/-- The command-processing block of a pass, in isolation: its resulting
state and effects. -/
def commandPhase (st : LoopState) (env : LoopEnv) : LoopState × CmdEffects :=
  if usub32 env.millis_copy st.tick_sc > PERIOD_SC then
    match env.cmd with
    | some tok =>
        let r := dispatchCmd env.readings.length tok st.DAQ_running
        (⟨r.1, env.millis_copy⟩, ⟨r.2.printed, r.2.resetChans, [tok]⟩)
    | none => (⟨st.DAQ_running, env.millis_copy⟩, ⟨[], [], []⟩)
  else (st, ⟨[], [], []⟩)

/-- The data-acquisition block of a pass, in isolation, as a function of
the state left by the command-processing block. -/
def acquirePhase (st1 : LoopState) (eff : CmdEffects) (env : LoopEnv) :
    LoopState × PassOut :=
  if st1.DAQ_running && env.convReady then
    (st1,
     ⟨eff.printed, eff.resetChans, eff.dispatched,
      some (emitLine env.ts_millis env.ts_micros env.readings),
      env.readings.length⟩)
  else
    (st1, ⟨eff.printed, eff.resetChans, eff.dispatched, none, 0⟩)

/-! ### Theorems -/

/-- C4: For every down-counter value from 0 to `SysTick->LOAD` inclusive,
the computed sub-millisecond fraction `(SysTick->LOAD - ticks) *
(1048576 / (VARIANT_MCK / 1000000)) >> 20` lies in 0–999; `stamp_micros_part`
is never 1000 or more. -/
theorem stampMicrosPart_le_999 (t : Nat) (ht : t ≤ SYSTICK_LOAD) :
    stampMicrosPart t ≤ 999 := by
  have hL : SYSTICK_LOAD = 119999 := by norm_num [SYSTICK_LOAD, VARIANT_MCK]
  have hK : 1048576 / (VARIANT_MCK / 1000000) = 8738 := by norm_num [VARIANT_MCK]
  have hu : usub32 SYSTICK_LOAD t = 119999 - t := by
    rw [hL] at ht; unfold usub32 UINT32_MOD; rw [hL]; omega
  unfold stampMicrosPart
  rw [hu, hK, Nat.shiftRight_eq_div_pow]
  have hmod : (119999 - t) * 8738 % UINT32_MOD = (119999 - t) * 8738 :=
    Nat.mod_eq_of_lt (by unfold UINT32_MOD; omega)
  rw [hmod]
  unfold UINT16_MOD
  norm_num
  have h1 : (119999 - t) * 8738 < 1000 * 1048576 := by omega
  have h2 : (119999 - t) * 8738 / 1048576 < 1000 :=
    (Nat.div_lt_iff_lt_mul (by norm_num)).mpr h1
  have h3 : (119999 - t) * 8738 / 1048576 % 65536 =
      (119999 - t) * 8738 / 1048576 := Nat.mod_eq_of_lt (by omega)
  omega

/-- Witness for `stampMicrosPart_le_999` at `t = 5`. -/
theorem stampMicrosPart_le_999_witness :
    5 ≤ SYSTICK_LOAD ∧ stampMicrosPart 5 ≤ 999 :=
  ⟨by decide, stampMicrosPart_le_999 5 (by decide)⟩

/-- C7: `on` while running keeps the DAQ running, `off` while idle keeps
it idle, and dispatching any token other than `id?`, `r`, `on`, `off`
twice in a row restores the original DAQ state (the toggle is an
involution). -/
theorem dispatchCmd_idempotence_and_toggle :
    (∀ n, (dispatchCmd n "on" true).1 = true) ∧
    (∀ n, (dispatchCmd n "off" false).1 = false) ∧
    (∀ n tok s, tok ≠ "id?" → tok ≠ "r" → tok ≠ "on" → tok ≠ "off" →
      (dispatchCmd n tok (dispatchCmd n tok s).1).1 = s) := by
  refine ⟨fun n => rfl, fun n => rfl, fun n tok s h1 h2 h3 h4 => ?_⟩
  simp [dispatchCmd, h1, h2, h3, h4]

/-- Witness for `dispatchCmd_idempotence_and_toggle` with the unrecognized
token `"xyz"` starting from the idle state. -/
theorem dispatchCmd_toggle_witness :
    ("xyz" ≠ "id?" ∧ "xyz" ≠ "r" ∧ "xyz" ≠ "on" ∧ "xyz" ≠ "off") ∧
    (dispatchCmd 3 "xyz" (dispatchCmd 3 "xyz" false).1).1 = false :=
  ⟨by decide,
   dispatchCmd_idempotence_and_toggle.2.2 3 "xyz" false
     (by decide) (by decide) (by decide) (by decide)⟩

/-- C8: Dispatching `id?` emits the identification string and forces the
DAQ state to idle, whatever the state before the command. -/
theorem dispatchCmd_id_stops_daq (n : Nat) (s : Bool) :
    (dispatchCmd n "id?" s).1 = false ∧
    (dispatchCmd n "id?" s).2.printed = [ID_STRING] := by
  constructor <;> rfl

/-- C9: Dispatching `r` resets the accumulator of every channel of the
channel array, in both DAQ states, and leaves the DAQ state unchanged. -/
theorem dispatchCmd_reset_all_channels (n : Nat) (s : Bool) :
    (dispatchCmd n "r" s).1 = s ∧
    (dispatchCmd n "r" s).2.resetChans = List.range n ∧
    (∀ i, i < n → i ∈ (dispatchCmd n "r" s).2.resetChans) := by
  refine ⟨rfl, rfl, fun i hi => ?_⟩
  simpa [dispatchCmd] using hi

/-- Witness for `dispatchCmd_reset_all_channels`: channel 2 of a 3-channel
array is reset while the DAQ is running. -/
theorem dispatchCmd_reset_witness :
    (2 : Nat) < 3 ∧ 2 ∈ (dispatchCmd 3 "r" true).2.resetChans :=
  ⟨by decide, (dispatchCmd_reset_all_channels 3 true).2.2 2 (by decide)⟩

/-- Helper: one control-loop pass is the command-processing block followed
by the acquisition block run on the state the command block left. -/
theorem loopPass_phases (st : LoopState) (env : LoopEnv) :
    loopPass st env =
      acquirePhase (commandPhase st env).1 (commandPhase st env).2 env := by
  unfold loopPass commandPhase acquirePhase
  by_cases h : usub32 env.millis_copy st.tick_sc > PERIOD_SC
  · simp only [if_pos h]
    cases env.cmd <;> rfl
  · simp only [if_neg h]

/-- Helper: the acquisition block does not change the loop state. -/
theorem acquirePhase_fst (st1 : LoopState) (eff : CmdEffects)
    (env : LoopEnv) : (acquirePhase st1 eff env).1 = st1 := by
  unfold acquirePhase
  split <;> rfl

/-- Helper: the acquisition block emits exactly when the DAQ is running
and the first channel is conversion-ready. -/
theorem acquirePhase_isSome (st1 : LoopState) (eff : CmdEffects)
    (env : LoopEnv) :
    ((acquirePhase st1 eff env).2.dataLine).isSome
      = (st1.DAQ_running && env.convReady) := by
  unfold acquirePhase
  rcases hB : (st1.DAQ_running && env.convReady) with _ | _ <;> simp

/-- Helper: when the acquisition block runs, the emitted line is the
formatted line over all channel readings and the whole array is
sampled. -/
theorem acquirePhase_dataLine (st1 : LoopState) (eff : CmdEffects)
    (env : LoopEnv) (l : List Char)
    (h : (acquirePhase st1 eff env).2.dataLine = some l) :
    l = emitLine env.ts_millis env.ts_micros env.readings ∧
    (acquirePhase st1 eff env).2.sampled = env.readings.length := by
  unfold acquirePhase at h ⊢
  by_cases hc : (st1.DAQ_running && env.convReady) = true
  · rw [if_pos hc] at h ⊢
    exact ⟨(Option.some.inj h).symm, rfl⟩
  · rw [if_neg hc] at h
    simp at h

/-- Helper: the acquisition block emits nothing when the DAQ is idle. -/
theorem acquirePhase_idle (st1 : LoopState) (eff : CmdEffects)
    (env : LoopEnv) (h : st1.DAQ_running = false) :
    (acquirePhase st1 eff env).2.dataLine = none := by
  unfold acquirePhase
  simp [h]

/-- Helper: a line emitted by a pass is exactly the formatted line for the
pass's timestamp and the full channel readings, and emission sets the
sampled-channel count to the whole array. -/
theorem loopPass_dataLine_eq (st : LoopState) (env : LoopEnv)
    (l : List Char) (h : (loopPass st env).2.dataLine = some l) :
    l = emitLine env.ts_millis env.ts_micros env.readings ∧
    (loopPass st env).2.sampled = env.readings.length := by
  rw [loopPass_phases] at h ⊢
  exact acquirePhase_dataLine _ _ _ _ h

/-- C10: A control-loop pass dispatches at most one command, and the pass
is the command-processing block followed by the acquisition block run on
the state the commands left, so a state transition caused by a command
takes effect before the sampling decision of the same pass. -/
theorem loopPass_command_before_sampling (st : LoopState) (env : LoopEnv) :
    loopPass st env =
      acquirePhase (commandPhase st env).1 (commandPhase st env).2 env ∧
    (loopPass st env).2.dispatched.length ≤ 1 := by
  refine ⟨loopPass_phases st env, ?_⟩
  unfold loopPass
  by_cases h : usub32 env.millis_copy st.tick_sc > PERIOD_SC
  · simp only [if_pos h]
    cases env.cmd <;> split <;> simp
  · simp only [if_neg h]
    split <;> simp

/-- C6: A pass emits a data line exactly when the post-command DAQ state
is running and the first channel reports conversion-ready; an emitted line
carries the readings of every channel of the array; and a pass that
dispatches `off` emits nothing. -/
theorem loopPass_emits_iff (st : LoopState) (env : LoopEnv) :
    ((loopPass st env).2.dataLine).isSome
      = ((loopPass st env).1.DAQ_running && env.convReady) ∧
    (∀ l, (loopPass st env).2.dataLine = some l →
      l = emitLine env.ts_millis env.ts_micros env.readings ∧
      (loopPass st env).2.sampled = env.readings.length) ∧
    (usub32 env.millis_copy st.tick_sc > PERIOD_SC → env.cmd = some "off" →
      (loopPass st env).2.dataLine = none) := by
  refine ⟨?_, fun l h => loopPass_dataLine_eq st env l h, fun hp hc => ?_⟩
  · rw [loopPass_phases, acquirePhase_isSome, acquirePhase_fst]
  · rw [loopPass_phases]
    have h1 : (commandPhase st env).1.DAQ_running = false := by
      unfold commandPhase
      simp only [if_pos hp, hc]
      rfl
    exact acquirePhase_idle _ _ _ h1

/-- Witness for `loopPass_emits_iff`: a pass that receives `off` while
running and conversion-ready emits no line. -/
theorem loopPass_emits_iff_witness :
    usub32 100 0 > PERIOD_SC ∧
    (loopPass ⟨true, 0⟩ ⟨100, some "off", true, 7, 300, []⟩).2.dataLine
      = none :=
  ⟨by decide,
   (loopPass_emits_iff ⟨true, 0⟩ ⟨100, some "off", true, 7, 300, []⟩).2.2
     (by decide) rfl⟩

/-- Helper: decimal digit characters are neither tab nor the decimal
point. -/
theorem digitChar_ne_tab_dot (m : Nat) (h : m < 10) :
    Nat.digitChar m ≠ '\t' ∧ Nat.digitChar m ≠ '.' := by
  interval_cases m <;> exact ⟨by decide, by decide⟩

/-- Helper: the characters of a rendered unsigned integer are neither tab
nor the decimal point. -/
theorem natDigitsGo_chars (fuel : Nat) :
    ∀ n c, c ∈ natDigitsGo fuel n → c ≠ '\t' ∧ c ≠ '.' := by
  induction fuel with
  | zero => intro n c hc; simp [natDigitsGo] at hc
  | succ f ih =>
      intro n c hc
      rw [natDigitsGo] at hc
      by_cases hn : n < 10
      · rw [if_pos hn] at hc
        simp at hc
        subst hc
        exact digitChar_ne_tab_dot n hn
      · rw [if_neg hn] at hc
        rcases List.mem_append.mp hc with h1 | h1
        · exact ih _ _ h1
        · simp at h1
          subst h1
          exact digitChar_ne_tab_dot _ (Nat.mod_lt _ (by norm_num))

/-- Helper: `natDigits` produces only digit characters. -/
theorem natDigits_chars (n : Nat) (c : Char) (hc : c ∈ natDigits n) :
    c ≠ '\t' ∧ c ≠ '.' :=
  natDigitsGo_chars _ _ _ hc

/-- Helper: the zero-padded fraction has exactly `d` characters. -/
theorem padDigitsRev_length : ∀ d m, (padDigitsRev d m).length = d := by
  intro d
  induction d with
  | zero => intro m; rfl
  | succ d ih => intro m; simp [padDigitsRev, ih]

/-- Helper: the zero-padded fraction contains only digit characters. -/
theorem padDigitsRev_chars :
    ∀ d m c, c ∈ padDigitsRev d m → c ≠ '\t' ∧ c ≠ '.' := by
  intro d
  induction d with
  | zero => intro m c hc; simp [padDigitsRev] at hc
  | succ d ih =>
      intro m c hc
      rcases List.mem_cons.mp hc with h1 | h1
      · subst h1
        exact digitChar_ne_tab_dot _ (Nat.mod_lt _ (by norm_num))
      · exact ih _ _ h1

/-- Helper: a `%.*f`-formatted field contains no tab. -/
theorem fmtFixed_ne_tab (d : Nat) (q : Int) (c : Char)
    (hc : c ∈ fmtFixed d q) : c ≠ '\t' := by
  by_cases hq : q < 0 <;> simp [fmtFixed, hq, List.mem_append] at hc
  · rcases hc with rfl | h | rfl | h
    · decide
    · exact (natDigits_chars _ _ h).1
    · decide
    · exact (padDigitsRev_chars _ _ _ h).1
  · rcases hc with h | rfl | h
    · exact (natDigits_chars _ _ h).1
    · decide
    · exact (padDigitsRev_chars _ _ _ h).1

/-- Helper: `takeWhile` stops exactly at the first failing element. -/
theorem takeWhile_all_stop (p : Char → Bool) :
    ∀ (xs : List Char) (y : Char) (ys : List Char),
      (∀ x ∈ xs, p x = true) → p y = false →
      (xs ++ y :: ys).takeWhile p = xs := by
  intro xs
  induction xs with
  | nil => intro y ys _ hy; simp [List.takeWhile_cons, hy]
  | cons a l ih =>
      intro y ys hall hy
      rw [List.cons_append, List.takeWhile_cons,
        hall a (List.mem_cons_self a l)]
      simp only [if_true]
      rw [ih y ys (fun x hx => hall x (List.mem_cons_of_mem _ hx)) hy]

/-- Helper: a `%.*f`-formatted field has exactly `d` characters after its
(last) decimal point. -/
theorem fracLen_fmtFixed (d : Nat) (q : Int) : fracLen (fmtFixed d q) = d := by
  unfold fracLen fmtFixed
  rw [show ((if q < 0 then ['-'] else []) ++
      natDigits (q.natAbs / 10 ^ d) ++
      '.' :: (padDigitsRev d (q.natAbs % 10 ^ d)).reverse).reverse
      = padDigitsRev d (q.natAbs % 10 ^ d) ++
        '.' :: ((natDigits (q.natAbs / 10 ^ d)).reverse ++
          (if q < 0 then ['-'] else []).reverse) from by
    simp [List.reverse_append]]
  have hall : ∀ x ∈ padDigitsRev d (q.natAbs % 10 ^ d),
      (x != '.') = true := by
    intro x hx
    simp [bne_iff_ne]
    exact (padDigitsRev_chars _ _ _ hx).2
  have hdot : (('.' : Char) != '.') = false := by decide
  rw [takeWhile_all_stop (fun c => c != '.')
    (padDigitsRev d (q.natAbs % 10 ^ d)) '.'
    ((natDigits (q.natAbs / 10 ^ d)).reverse ++
      (if q < 0 then ['-'] else []).reverse) hall hdot]
  exact padDigitsRev_length d _

/-- Helper: the per-channel appends equal field-by-field appends of the
channel field list. -/
theorem foldl_appendChannel (rs : List (Int × Int × Int)) :
    ∀ acc : List Char,
      rs.foldl appendChannel acc = (channelFields rs).foldl appendField acc := by
  induction rs with
  | nil => intro acc; rfl
  | cons r rest ih =>
      intro acc
      simp only [channelFields, List.foldl_cons]
      rw [ih]
      congr 1
      simp [appendChannel, appendField, List.append_assoc]

/-- Helper: the assembled data line is the tab-join of its field list. -/
theorem mkDataLine_eq_joinTab (ms us : Nat) (rs : List (Int × Int × Int)) :
    mkDataLine ms us rs = joinTab (dataFields ms us rs) := by
  unfold mkDataLine dataFields joinTab
  rw [foldl_appendChannel]
  rfl

/-- Helper: three fields per channel. -/
theorem channelFields_length (rs : List (Int × Int × Int)) :
    (channelFields rs).length = 3 * rs.length := by
  induction rs with
  | nil => rfl
  | cons r rest ih => simp [channelFields, ih]; omega

/-- Helper: `2 + 3 n` fields for `n` channels. -/
theorem dataFields_length (ms us : Nat) (rs : List (Int × Int × Int)) :
    (dataFields ms us rs).length = 2 + 3 * rs.length := by
  simp [dataFields, channelFields_length]
  omega

/-- Helper: no channel field contains a tab. -/
theorem channelFields_tab_free (rs : List (Int × Int × Int)) :
    ∀ f ∈ channelFields rs, '\t' ∉ f := by
  induction rs with
  | nil => intro f hf; simp [channelFields] at hf
  | cons r rest ih =>
      intro f hf
      rcases List.mem_cons.mp hf with rfl | hf1
      · exact fun h => fmtFixed_ne_tab _ _ _ h rfl
      rcases List.mem_cons.mp hf1 with rfl | hf2
      · exact fun h => fmtFixed_ne_tab _ _ _ h rfl
      rcases List.mem_cons.mp hf2 with rfl | hf3
      · exact fun h => fmtFixed_ne_tab _ _ _ h rfl
      · exact ih f hf3

/-- Helper: no field of a data line contains a tab, so the tab-join has an
unambiguous field decomposition. -/
theorem dataFields_tab_free (ms us : Nat) (rs : List (Int × Int × Int)) :
    ∀ f ∈ dataFields ms us rs, '\t' ∉ f := by
  intro f hf
  rcases List.mem_cons.mp hf with rfl | hf1
  · exact fun h => (natDigits_chars _ _ h).1 rfl
  rcases List.mem_cons.mp hf1 with rfl | hf2
  · exact fun h => (natDigits_chars _ _ h).1 rfl
  · exact channelFields_tab_free rs f hf2

/-- C5: Every emitted data line is the tab-join of exactly `2 + 3 n`
tab-free fields for `n` channels — the millis and micros fields, then per
channel a current field and a bus-voltage field with exactly 2 fractional
digits and an energy field with exactly 5 — and it ends with the line
terminator. -/
theorem loopPass_line_shape (st : LoopState) (env : LoopEnv) (l : List Char)
    (h : (loopPass st env).2.dataLine = some l) :
    l = joinTab (dataFields env.ts_millis env.ts_micros env.readings)
        ++ lineTerm ∧
    (dataFields env.ts_millis env.ts_micros env.readings).length
      = 2 + 3 * env.readings.length ∧
    (∀ f ∈ dataFields env.ts_millis env.ts_micros env.readings, '\t' ∉ f) ∧
    (∀ r ∈ env.readings,
      fracLen (fmtFixed 2 r.1) = 2 ∧ fracLen (fmtFixed 2 r.2.1) = 2 ∧
      fracLen (fmtFixed 5 r.2.2) = 5) ∧
    lineTerm <:+ l ∧ ['\n'] <:+ l := by
  obtain ⟨hl, -⟩ := loopPass_dataLine_eq st env l h
  subst hl
  refine ⟨?_, dataFields_length _ _ _, dataFields_tab_free _ _ _,
    fun r hr => ⟨fracLen_fmtFixed _ _, fracLen_fmtFixed _ _,
      fracLen_fmtFixed _ _⟩, ?_, ?_⟩
  · unfold emitLine
    rw [mkDataLine_eq_joinTab]
  · exact ⟨mkDataLine env.ts_millis env.ts_micros env.readings, rfl⟩
  · exact ⟨mkDataLine env.ts_millis env.ts_micros env.readings ++ ['\r'],
      by simp [emitLine, lineTerm]⟩

/-- Witness for `loopPass_line_shape`: the line of a 1-channel pass at
timestamp (1000 ms, 250 µs) with readings 12.34 mA, 4950.10 mV,
0.00123 J. -/
theorem loopPass_line_shape_witness :
    (loopPass ⟨true, 0⟩
        ⟨100, none, true, 1000, 250, [(1234, 495010, 123)]⟩).2.dataLine
      = some ("1000\t250\t12.34\t4950.10\t0.00123\r\n".data) ∧
    ("1000\t250\t12.34\t4950.10\t0.00123\r\n".data
        = joinTab (dataFields 1000 250 [(1234, 495010, 123)]) ++ lineTerm ∧
      (dataFields 1000 250 [(1234, 495010, 123)]).length = 2 + 3 * 1 ∧
      (∀ f ∈ dataFields 1000 250 [(1234, 495010, 123)], '\t' ∉ f) ∧
      (∀ r ∈ [((1234 : Int), (495010 : Int), (123 : Int))],
        fracLen (fmtFixed 2 r.1) = 2 ∧ fracLen (fmtFixed 2 r.2.1) = 2 ∧
        fracLen (fmtFixed 5 r.2.2) = 5) ∧
      lineTerm <:+ "1000\t250\t12.34\t4950.10\t0.00123\r\n".data ∧
      ['\n'] <:+ "1000\t250\t12.34\t4950.10\t0.00123\r\n".data) :=
  ⟨by decide,
   loopPass_line_shape ⟨true, 0⟩
     ⟨100, none, true, 1000, 250, [(1234, 495010, 123)]⟩ _ (by decide)⟩

/-- Helper: one unfolding of the consistency-retry loop. -/
theorem sysLoop_succ (load cLocal fuel : Nat) (snap2 : SysSnap)
    (rs : ReadSt) :
    sysLoop load cLocal (fuel + 1) snap2 rs =
      (if snap2.pend ≠ (advance load (advance load rs)).hw.pend ∨
          snap2.count ≠ cLocal ∨
          snap2.ticks < (advance load rs).hw.val then
        sysLoop load cLocal fuel
          ⟨(advance load rs).hw.val,
            (advance load (advance load rs)).hw.pend, cLocal⟩
          (advance load (advance load rs))
      else
        some (snap2,
          ⟨(advance load rs).hw.val,
            (advance load (advance load rs)).hw.pend, cLocal⟩,
          advance load (advance load rs))) := rfl

/-- Helper: an exhausted schedule leaves the environment unchanged. -/
theorem advance_nil (load : Nat) (rs : ReadSt) (h : rs.sched = []) :
    advance load rs = rs := by
  cases rs with
  | mk hw sched => subst h; rfl

/-- Helper: a nonempty schedule is consumed one batch per read. -/
theorem advance_cons (load : Nat) (rs : ReadSt) (b : List TickEv)
    (rest : List (List TickEv)) (h : rs.sched = b :: rest) :
    advance load rs = ⟨runEvs load rs.hw b, rest⟩ := by
  cases rs with
  | mk hw sched => subst h; rfl

/-- Helper: the schedule never grows. -/
theorem advance_sched_le (load : Nat) (rs : ReadSt) :
    (advance load rs).sched.length ≤ rs.sched.length := by
  cases rs with
  | mk hw sched => cases sched <;> simp [advance]

/-- Helper: with the schedule exhausted and snapshot2 agreeing with the
hardware, the retry loop exits on its next iteration. -/
theorem sysLoop_exit (load cLocal fuel : Nat) (s2 : SysSnap) (rs : ReadSt)
    (hs : rs.sched = []) (ht : s2.ticks = rs.hw.val)
    (hp : s2.pend = rs.hw.pend) (hc : s2.count = cLocal) :
    sysLoop load cLocal (fuel + 1) s2 rs =
      some (s2, ⟨rs.hw.val, rs.hw.pend, cLocal⟩, rs) := by
  rw [sysLoop_succ]
  simp only [advance_nil load rs hs]
  rw [if_neg]
  simp [ht, hp, hc]

/-- Helper: with the schedule exhausted the retry loop returns within two
iterations. -/
theorem sysLoop_empty_some (load cLocal fuel : Nat) (s2 : SysSnap)
    (rs : ReadSt) (hs : rs.sched = []) (_hc : s2.count = cLocal) :
    ∃ r, sysLoop load cLocal (fuel + 2) s2 rs = some r := by
  rw [show fuel + 2 = (fuel + 1) + 1 from rfl, sysLoop_succ]
  simp only [advance_nil load rs hs]
  by_cases hcond : s2.pend ≠ rs.hw.pend ∨ s2.count ≠ cLocal ∨
      s2.ticks < rs.hw.val
  · rw [if_pos hcond]
    exact ⟨_, sysLoop_exit load cLocal fuel _ rs hs rfl rfl rfl⟩
  · rw [if_neg hcond]
    exact ⟨_, rfl⟩

/-- Helper: the retry loop terminates for every finite event schedule:
`length + 2` iterations of fuel always suffice, because an iteration that
retries has consumed at least one batch of the schedule. -/
theorem sysLoop_total (load cLocal : Nat) :
    ∀ (N : Nat) (s2 : SysSnap) (rs : ReadSt), rs.sched.length ≤ N →
      s2.count = cLocal →
      ∃ r, sysLoop load cLocal (N + 2) s2 rs = some r := by
  intro N
  induction N with
  | zero =>
      intro s2 rs hlen hc
      exact sysLoop_empty_some load cLocal 0 s2 rs
        (List.length_eq_zero.mp (Nat.le_zero.mp hlen)) hc
  | succ N ih =>
      intro s2 rs hlen hc
      cases hsched : rs.sched with
      | nil => exact sysLoop_empty_some load cLocal (N + 1) s2 rs hsched hc
      | cons b rest =>
          rw [show N + 1 + 2 = (N + 2) + 1 from rfl, sysLoop_succ]
          split
          · apply ih
            · calc (advance load (advance load rs)).sched.length
                  ≤ (advance load rs).sched.length := advance_sched_le _ _
                _ = rest.length := by rw [advance_cons load rs b rest hsched]
                _ ≤ N := by
                    rw [hsched] at hlen
                    simpa using Nat.lt_succ_iff.mp
                      (Nat.lt_of_lt_of_le (Nat.lt_succ_self _) hlen)
            · rfl
          · exact ⟨_, rfl⟩

/-- Helper: on exit of the retry loop the two snapshots satisfy the
negated retry condition: equal pending flags, equal counts, and a
non-increasing down-counter. -/
theorem sysLoop_consistent (load cLocal : Nat) :
    ∀ (fuel : Nat) (s2 : SysSnap) (rs : ReadSt) (s1 s2f : SysSnap)
      (rsF : ReadSt),
      sysLoop load cLocal fuel s2 rs = some (s1, s2f, rsF) →
      s1.pend = s2f.pend ∧ s1.count = s2f.count ∧ s2f.ticks ≤ s1.ticks := by
  intro fuel
  induction fuel with
  | zero => intro s2 rs s1 s2f rsF h; simp [sysLoop] at h
  | succ f ih =>
      intro s2 rs s1 s2f rsF h
      rw [sysLoop_succ] at h
      split at h
      · exact ih _ _ _ _ _ h
      · rename_i hcond
        push_neg at hcond
        obtain ⟨h1, h2, h3⟩ := hcond
        simp only [Option.some.injEq, Prod.mk.injEq] at h
        obtain ⟨rfl, rfl, rfl⟩ := h
        exact ⟨h1, h2, h3⟩

/-- Helper: the value `get_systick_timestamp` assembles from a converged
run of its retry loop. -/
theorem get_systick_timestamp_eq (fuel : Nat) (rs0 : ReadSt)
    (s1 s2 : SysSnap) (rsF : ReadSt)
    (h : sysLoop SYSTICK_LOAD rs0.hw.tick fuel
      ⟨(advance SYSTICK_LOAD rs0).hw.val,
        (advance SYSTICK_LOAD (advance SYSTICK_LOAD rs0)).hw.pend,
        rs0.hw.tick⟩
      (advance SYSTICK_LOAD (advance SYSTICK_LOAD rs0)) = some (s1, s2, rsF)) :
    get_systick_timestamp fuel rs0 =
      some ⟨(s2.count + if s1.pend then 1 else 0) % UINT32_MOD,
        stampMicrosPart s1.ticks, s1, s2, rsF⟩ := by
  simp only [get_systick_timestamp]
  rw [h]

/-- C1: For every initial hardware state and every finite schedule of
once-per-millisecond tick interrupts and handler runs interleaved with the
read sequence, the consistency-retry loop of `get_systick_timestamp`
terminates (fuel `schedule length + 2` suffices), and on exit the two
snapshots agree on the pending flag and on the millisecond count, and the
down-counter did not increase between the earlier and the later read. -/
theorem get_systick_timestamp_converges (rs0 : ReadSt) :
    ∃ o : TSOut,
      get_systick_timestamp (rs0.sched.length + 2) rs0 = some o ∧
      o.snap1.pend = o.snap2.pend ∧ o.snap1.count = o.snap2.count ∧
      o.snap2.ticks ≤ o.snap1.ticks := by
  have hlen :
      (advance SYSTICK_LOAD (advance SYSTICK_LOAD rs0)).sched.length ≤
        rs0.sched.length :=
    le_trans (advance_sched_le _ _) (advance_sched_le _ _)
  obtain ⟨⟨s1, s2, rsF⟩, hr⟩ :=
    sysLoop_total SYSTICK_LOAD rs0.hw.tick rs0.sched.length
      ⟨(advance SYSTICK_LOAD rs0).hw.val,
        (advance SYSTICK_LOAD (advance SYSTICK_LOAD rs0)).hw.pend,
        rs0.hw.tick⟩
      (advance SYSTICK_LOAD (advance SYSTICK_LOAD rs0)) hlen rfl
  have hcons := sysLoop_consistent SYSTICK_LOAD rs0.hw.tick _ _ _ _ _ _ hr
  exact ⟨⟨(s2.count + if s1.pend then 1 else 0) % UINT32_MOD,
      stampMicrosPart s1.ticks, s1, s2, rsF⟩,
    get_systick_timestamp_eq _ rs0 s1 s2 rsF hr,
    hcons.1, hcons.2.1, hcons.2.2⟩

/-- C3: Whenever `get_systick_timestamp` returns, its millisecond result
is the converged snapshot's millisecond count, incremented by exactly one
(mod 2^32) precisely when that snapshot's pending flag was set. -/
theorem get_systick_timestamp_millis (fuel : Nat) (rs0 : ReadSt) (o : TSOut)
    (h : get_systick_timestamp fuel rs0 = some o) :
    o.millis = (o.snap2.count + if o.snap2.pend then 1 else 0)
      % UINT32_MOD := by
  simp only [get_systick_timestamp] at h
  rcases hsl : sysLoop SYSTICK_LOAD rs0.hw.tick fuel
      ⟨(advance SYSTICK_LOAD rs0).hw.val,
        (advance SYSTICK_LOAD (advance SYSTICK_LOAD rs0)).hw.pend,
        rs0.hw.tick⟩
      (advance SYSTICK_LOAD (advance SYSTICK_LOAD rs0))
    with _ | ⟨⟨s1, s2, rsF⟩⟩
  · rw [hsl] at h
    exact absurd h (by simp)
  · rw [hsl] at h
    have hcons := sysLoop_consistent SYSTICK_LOAD rs0.hw.tick _ _ _ _ _ _ hsl
    obtain rfl : TSOut.mk ((s2.count + if s1.pend then 1 else 0) % UINT32_MOD)
        (stampMicrosPart s1.ticks) s1 s2 rsF = o := Option.some.inj h
    simp only
    rw [hcons.1]

/-- Witness for `get_systick_timestamp_millis`: a quiescent run starting
at down-counter 2, no pending interrupt, tick count 5. -/
theorem get_systick_timestamp_millis_witness :
    get_systick_timestamp 2 ⟨⟨2, false, 5⟩, []⟩ =
      some ⟨5, 999, ⟨2, false, 5⟩, ⟨2, false, 5⟩, ⟨⟨2, false, 5⟩, []⟩⟩ ∧
    (TSOut.mk 5 999 ⟨2, false, 5⟩ ⟨2, false, 5⟩ ⟨⟨2, false, 5⟩, []⟩).millis =
      ((TSOut.mk 5 999 ⟨2, false, 5⟩ ⟨2, false, 5⟩
          ⟨⟨2, false, 5⟩, []⟩).snap2.count +
        if (TSOut.mk 5 999 ⟨2, false, 5⟩ ⟨2, false, 5⟩
            ⟨⟨2, false, 5⟩, []⟩).snap2.pend then 1 else 0) % UINT32_MOD :=
  ⟨by decide,
   get_systick_timestamp_millis 2 ⟨⟨2, false, 5⟩, []⟩ _ (by decide)⟩

/-- C2 counterexample record: two successive calls to
`get_systick_timestamp`, the second of whose read sequences is preempted
by the millisecond tick (counter wrap) and its handler right after the
local `_ulTickCount = millis()` read, return (5 ms, 999 µs) and then
(5 ms, 0 µs): lexicographically decreasing with no 2^32 wraparound,
because the local copy of `millis()` hides the serviced tick from the
`count != count2` retry test. -/
theorem systick_stale_count_nonmonotone :
    ∃ o1 o2 : TSOut,
      get_systick_timestamp 2 ⟨⟨2, false, 5⟩, []⟩ = some o1 ∧
      get_systick_timestamp 2
        ⟨o1.final.hw, [[.clk, .clk, .clk, .svc], [.clk], [.clk], []]⟩
        = some o2 ∧
      o1.millis = 5 ∧ o1.microsPart = 999 ∧
      o2.millis = 5 ∧ o2.microsPart = 0 ∧
      (o2.millis < o1.millis ∨
        (o2.millis = o1.millis ∧ o2.microsPart < o1.microsPart)) := by
  refine ⟨⟨5, 999, ⟨2, false, 5⟩, ⟨2, false, 5⟩, ⟨⟨2, false, 5⟩, []⟩⟩,
    ⟨5, 0, ⟨119999, false, 5⟩, ⟨119997, false, 5⟩, ⟨⟨119997, false, 6⟩, []⟩⟩,
    by decide, by decide, rfl, rfl, rfl, rfl, Or.inr ⟨rfl, by decide⟩⟩

end Windfarm
